import Mathlib

/-!
Verification of the Copenhell artist-monitor agent (copenhell_agent.py).

The program is a single linear pipeline: scrape the lineup page for a set of
performer names, load the persisted known set, diff, enrich the delta via
Spotify and Last.fm, send one e-mail, and persist the scraped set.  All
network and file I/O outcomes are modelled as an environment record `Env`;
the pure control flow of `main` and of each helper function is translated
directly from the source.  Performer names are `String`s, sets of names are
`Finset String` (Python `set[str]`), and the state file content is an
`Option (Except Unit (List String))`: `none` when the file does not exist,
`some (Except.error ())` when it exists but `json.load` raises, and
`some (Except.ok l)` when it holds a JSON list of strings.
-/

namespace Copenhell

/-- Python truthiness of an optional string: `None` and `""` are falsy.
Used for the credential checks (`if not CONFIG[...]`) and the token check
(`if token:`). -/
def pyTruthy : Option String → Bool
  | none => false
  | some s => s != ""

/-- Outcome of one HTTP request made by the agent: the call raises an
exception (timeout, connection error, malformed JSON body), returns a
non-2xx response (`resp.ok` false), or returns a parsed payload. -/
inductive HttpResult (α : Type) where
  | raise
  | notOk
  | ok (payload : α)
deriving DecidableEq

/-- One artist item of a Spotify search response, with the fields the code
reads (`external_urls.spotify`, `genres`, `followers.total`, `popularity`,
`images[*].url`). -/
structure SpotifyArtist where
  external_url : String
  genres : List String
  followers : Nat
  popularity : Nat
  images : List String
deriving DecidableEq

/-- The dict built by `get_spotify_info` for one artist. -/
structure SpotifyInfo where
  spotify_url : String
  genres : String
  followers : String
  popularity : Nat
  image : String
deriving DecidableEq

/-- Thousands grouping on a reversed digit list, inserting a dot every
three digits; models Python `f"{n:,}".replace(",", ".")`. -/
def insertThousandsSep : List Char → List Char
  | a :: b :: c :: d :: rest => a :: b :: c :: '.' :: insertThousandsSep (d :: rest)
  | l => l

/-- Follower-count formatting used by `get_spotify_info`. -/
def formatFollowers (n : Nat) : String :=
  String.mk ((insertThousandsSep (toString n).toList.reverse).reverse)

/-- Field mapping of `get_spotify_info` on the first returned item. -/
def mkSpotifyInfo (a : SpotifyArtist) : SpotifyInfo :=
  { spotify_url := a.external_url
    genres := if String.intercalate ", " (a.genres.take 3) = "" then "Ukendt genre"
              else String.intercalate ", " (a.genres.take 3)
    followers := formatFollowers a.followers
    popularity := a.popularity
    image := a.images.headD "" }

/-- Result of `get_spotify_info(name, token)` when the HTTP call does not
raise: non-2xx and zero-item responses give the empty dict (`none`). -/
def spotifyRecord : HttpResult (List SpotifyArtist) → Option SpotifyInfo
  | HttpResult.raise => none
  | HttpResult.notOk => none
  | HttpResult.ok [] => none
  | HttpResult.ok (a :: _) => some (mkSpotifyInfo a)

/-- Full behaviour of `get_spotify_info`: the function has no try/except,
so a raising request or a malformed JSON body propagates the exception
(`Except.error`); otherwise it returns the record of `spotifyRecord`. -/
def get_spotify_info (resp : HttpResult (List SpotifyArtist)) :
    Except Unit (Option SpotifyInfo) :=
  match resp with
  | HttpResult.raise => Except.error ()
  | r => Except.ok (spotifyRecord r)

/-- Behaviour of `get_spotify_token`: falsy credentials short-circuit to
`None`; otherwise the POST either raises (no try/except, so the exception
propagates), is non-2xx (logged, `None`), or yields the optional
`access_token` field. -/
def get_spotify_token (cid cs : Option String) (resp : HttpResult (Option String)) :
    Except Unit (Option String) :=
  if pyTruthy cid && pyTruthy cs then
    match resp with
    | HttpResult.raise => Except.error ()
    | HttpResult.notOk => Except.ok none
    | HttpResult.ok t => Except.ok t
  else Except.ok none

/-- Python `str.strip()` on a character list. -/
def stripChars (s : List Char) : List Char :=
  ((s.dropWhile Char.isWhitespace).reverse.dropWhile Char.isWhitespace).reverse

/-- The marker before which `get_lastfm_description` cuts the biography:
`bio.split("<a href")[0]`. -/
def linkMarker : List Char := ['<', 'a', ' ', 'h', 'r', 'e', 'f']

/-- Longest prefix of the text strictly before the first occurrence of the
marker; models `text.split(marker)[0]`. -/
def splitBefore (marker : List Char) : List Char → List Char
  | [] => []
  | a :: rest => if marker.isPrefixOf (a :: rest) then [] else a :: splitBefore marker rest

/-- Index of the last occurrence of a character, `none` when absent;
models Python `str.rfind` (which returns -1 when absent, so the code's
`last_period > 800` test is false exactly on `none` or small indices). -/
def rfindIdx (c : Char) : List Char → Option Nat
  | [] => none
  | a :: rest =>
    match rfindIdx c rest with
    | some i => some (i + 1)
    | none => if a = c then some 0 else none

/-- Length-bounding step of `get_lastfm_description`: when the bio exceeds
1200 characters keep the first 1200 (`bio[:1200]`) and, when the last
period of that prefix sits at an index above 800 (`rfind` yields -1, hence
`none`, when absent), cut right after that period. -/
def truncAt1200 (b : List Char) : List Char :=
  if 1200 < b.length then
    match rfindIdx '.' (b.take 1200) with
    | some i => if 800 < i then (b.take 1200).take (i + 1) else b.take 1200
    | none => b.take 1200
  else b

/-- Biography post-processing of `get_lastfm_description`: when the bio is
truthy, cut before the first "＜a href" marker and strip, bound the length
by `truncAt1200`, and strip the final result. -/
def truncateBio (bio : List Char) : List Char :=
  if bio = [] then stripChars bio
  else stripChars (truncAt1200 (stripChars (splitBefore linkMarker bio)))

/-- Outcome of one Last.fm lookup for one artist: `fail` covers every
exception (timeout, non-2xx via `raise_for_status`, malformed payload) —
all caught by the function's try/except — and `ok` carries the extracted
`bio.content` and `bio.summary` fields. -/
inductive LastfmResult where
  | fail
  | ok (content summary : List Char)
deriving DecidableEq

/-- Behaviour of `get_lastfm_description`: empty string when the API key is
falsy or any exception occurs; otherwise the content field (or, when that
is empty, the summary field) post-processed by `truncateBio`. -/
def get_lastfm_description (key : Option String) (resp : LastfmResult) : List Char :=
  if pyTruthy key then
    match resp with
    | LastfmResult.fail => []
    | LastfmResult.ok content summary =>
      truncateBio (if content = [] then summary else content)
  else []

/-- Behaviour of `load_known_artists`: empty set when the state file does
not exist; the set of the JSON list when it parses; an uncaught exception
(`Except.error`) when the file exists but `json.load` raises. -/
def load_known_artists (file : Option (Except Unit (List String))) :
    Except Unit (Finset String) :=
  match file with
  | none => Except.ok ∅
  | some (Except.error e) => Except.error e
  | some (Except.ok l) => Except.ok l.toFinset

/-- Behaviour of `save_known_artists`: the file is overwritten with
`sorted(artists)`, the sorted duplicate-free listing of the set. -/
def save_known_artists (artists : Finset String) : List String :=
  artists.sort (· ≤ ·)

/-- Environment of one run: the outcome of every I/O interaction `main`
can perform.  Per-artist HTTP outcomes are functions of the artist name. -/
structure Env where
  fetchResult : Except Unit (Finset String)
  stateFile : Option (Except Unit (List String))
  spotify_client_id : Option String
  spotify_client_secret : Option String
  tokenResp : HttpResult (Option String)
  spotifySearch : String → HttpResult (List SpotifyArtist)
  lastfm_api_key : Option String
  lastfmResp : String → LastfmResult
  dispatchOk : Bool

/-- Observable outcome of one run of `main`: the state file afterwards,
the rows passed to `send_email` (`none` when it is never called), whether
the SMTP dispatch succeeded, whether `main` terminated by an uncaught
exception, and which artists were looked up per catalog.  `spotifyCalls`
is `none` on the path where a Spotify search raises mid-loop: there the
set of issued calls depends on Python's unspecified set iteration order,
so the model does not commit to it. -/
structure RunResult where
  stateFile : Option (Except Unit (List String))
  attempted : Option (List (String × Option SpotifyInfo × List Char))
  dispatched : Bool
  raised : Bool
  spotifyCalls : Option (Finset String)
  lastfmCalls : Finset String

/-- Rows of the e-mail body: `send_email` iterates `sorted(new_artists)`
and attaches each name's Spotify record and Last.fm description. -/
def email_rows (delta : Finset String) (sd : String → Option SpotifyInfo)
    (ds : String → List Char) : List (String × Option SpotifyInfo × List Char) :=
  (delta.sort (· ≤ ·)).map fun n => (n, sd n, ds n)

/-- Last two stages of `main`: the Last.fm loop (which never raises), the
`send_email` call guarded by try/except, and the final save that is
reached only when dispatch succeeds. -/
def runDispatch (env : Env) (current delta : Finset String) (calls : Finset String)
    (sd : String → Option SpotifyInfo) : RunResult :=
  let rows := email_rows delta sd fun n => get_lastfm_description env.lastfm_api_key (env.lastfmResp n)
  if env.dispatchOk then
    { stateFile := some (Except.ok (save_known_artists current))
      attempted := some rows, dispatched := true, raised := false
      spotifyCalls := some calls, lastfmCalls := delta }
  else
    { stateFile := env.stateFile
      attempted := some rows, dispatched := false, raised := false
      spotifyCalls := some calls, lastfmCalls := delta }

/-- Enrichment stage of `main`: obtain the Spotify token (a raising
exchange propagates and aborts the run), and when the token is truthy run
`get_spotify_info` for every delta member — a raising search aborts the
run with the state file untouched; with a falsy token the Spotify dict
stays empty and every row's record is the empty dict. -/
def runEnrich (env : Env) (current delta : Finset String) : RunResult :=
  match get_spotify_token env.spotify_client_id env.spotify_client_secret env.tokenResp with
  | Except.error _ =>
    { stateFile := env.stateFile, attempted := none, dispatched := false, raised := true
      spotifyCalls := some ∅, lastfmCalls := ∅ }
  | Except.ok token =>
    if pyTruthy token then
      if ∃ n ∈ delta, env.spotifySearch n = HttpResult.raise then
        { stateFile := env.stateFile, attempted := none, dispatched := false, raised := true
          spotifyCalls := none, lastfmCalls := ∅ }
      else
        runDispatch env current delta delta fun n => spotifyRecord (env.spotifySearch n)
    else
      runDispatch env current delta ∅ fun _ => none

/-- Control flow of `main`: a caught fetch failure or an empty scrape
returns with nothing changed; a raising `load_known_artists` propagates;
an empty delta saves the current set and returns; otherwise enrichment,
dispatch and save run via `runEnrich`. -/
def main (env : Env) : RunResult :=
  match env.fetchResult with
  | Except.error _ =>
    { stateFile := env.stateFile, attempted := none, dispatched := false, raised := false
      spotifyCalls := some ∅, lastfmCalls := ∅ }
  | Except.ok current =>
    if current = ∅ then
      { stateFile := env.stateFile, attempted := none, dispatched := false, raised := false
        spotifyCalls := some ∅, lastfmCalls := ∅ }
    else
      match load_known_artists env.stateFile with
      | Except.error _ =>
        { stateFile := env.stateFile, attempted := none, dispatched := false, raised := true
          spotifyCalls := some ∅, lastfmCalls := ∅ }
      | Except.ok known =>
        if current \ known = ∅ then
          { stateFile := some (Except.ok (save_known_artists current))
            attempted := none, dispatched := false, raised := false
            spotifyCalls := some ∅, lastfmCalls := ∅ }
        else
          runEnrich env current (current \ known)

/-- Concrete run used as a witness: scrape yields two names, one already
known, every external call succeeds or degrades gracefully. -/
def envOk : Env :=
  { fetchResult := Except.ok {"A", "B"}
    stateFile := some (Except.ok ["A"])
    spotify_client_id := some "id"
    spotify_client_secret := some "secret"
    tokenResp := HttpResult.ok (some "tok")
    spotifySearch := fun _ => HttpResult.notOk
    lastfm_api_key := none
    lastfmResp := fun _ => LastfmResult.fail
    dispatchOk := true }

/-- Concrete run where a per-performer Spotify search raises (e.g. a
timeout): delta is the single new name. -/
def envRaise : Env :=
  { envOk with fetchResult := Except.ok {"A"}, stateFile := none,
               spotifySearch := fun _ => HttpResult.raise }

/-- Concrete run whose SMTP dispatch raises. -/
def envMailFail : Env := { envOk with dispatchOk := false }

/-- Concrete run whose fetch succeeds with zero candidates. -/
def envEmptyFetch : Env := { envOk with fetchResult := Except.ok ∅ }

/-- Second run directly after a successful run of `envOk`, scraping the
same roster against the state that the first run persisted. -/
def envSecond : Env := { envOk with stateFile := (main envOk).stateFile }

/-- Concrete run where the scraped roster equals the known set. -/
def envNoDelta : Env := { envOk with fetchResult := Except.ok {"A"} }

/-- Concrete run with the Spotify client id missing. -/
def envNoCreds : Env := { envOk with spotify_client_id := none }

/-- Concrete run whose state file exists but holds invalid JSON. -/
def envCorrupt : Env := { envOk with stateFile := some (Except.error ()) }

/-- Concrete 1201-character biography: 801 letters, one period, 399 more
letters, so the truncation point lies past the period at index 801. -/
def bioW : List Char := List.replicate 801 'x' ++ '.' :: List.replicate 399 'x'

/-- Loading a file just written by `save_known_artists` recovers the set. -/
theorem load_save (s : Finset String) :
    load_known_artists (some (Except.ok (save_known_artists s))) = Except.ok s := by
  simp [load_known_artists, save_known_artists, Finset.sort_toFinset]

/-- The names of the e-mail rows are exactly the delta. -/
theorem email_rows_names (delta : Finset String) (sd : String → Option SpotifyInfo)
    (ds : String → List Char) :
    ((email_rows delta sd ds).map fun e => e.1).toFinset = delta := by
  have h : ((email_rows delta sd ds).map fun e => e.1) = delta.sort (· ≤ ·) := by
    simp [email_rows, List.map_map, Function.comp_def]
  rw [h, Finset.sort_toFinset]

/-- Shape of each e-mail row: the name is in the delta and the metadata
columns are the two lookup results for that name. -/
theorem email_rows_mem {delta : Finset String} {sd : String → Option SpotifyInfo}
    {ds : String → List Char} {e : String × Option SpotifyInfo × List Char}
    (h : e ∈ email_rows delta sd ds) : e.1 ∈ delta ∧ e = (e.1, sd e.1, ds e.1) := by
  simp only [email_rows, List.mem_map] at h
  obtain ⟨n, hn, rfl⟩ := h
  exact ⟨(Finset.mem_sort _).mp hn, rfl⟩

theorem runDispatch_attempted (env : Env) (current delta calls : Finset String)
    (sd : String → Option SpotifyInfo) :
    (runDispatch env current delta calls sd).attempted =
      some (email_rows delta sd fun n => get_lastfm_description env.lastfm_api_key (env.lastfmResp n)) := by
  unfold runDispatch
  by_cases h : env.dispatchOk <;> simp [h]

theorem runDispatch_stateFile (env : Env) (current delta calls : Finset String)
    (sd : String → Option SpotifyInfo) :
    (runDispatch env current delta calls sd).stateFile =
      if env.dispatchOk then some (Except.ok (save_known_artists current)) else env.stateFile := by
  unfold runDispatch
  by_cases h : env.dispatchOk <;> simp [h]

theorem runDispatch_dispatched (env : Env) (current delta calls : Finset String)
    (sd : String → Option SpotifyInfo) :
    (runDispatch env current delta calls sd).dispatched = env.dispatchOk := by
  unfold runDispatch
  by_cases h : env.dispatchOk <;> simp [h]

theorem runDispatch_raised (env : Env) (current delta calls : Finset String)
    (sd : String → Option SpotifyInfo) :
    (runDispatch env current delta calls sd).raised = false := by
  unfold runDispatch
  by_cases h : env.dispatchOk <;> simp [h]

theorem runDispatch_spotifyCalls (env : Env) (current delta calls : Finset String)
    (sd : String → Option SpotifyInfo) :
    (runDispatch env current delta calls sd).spotifyCalls = some calls := by
  unfold runDispatch
  by_cases h : env.dispatchOk <;> simp [h]

/-- A raising token exchange is the only way `get_spotify_token` aborts. -/
theorem get_spotify_token_error {cid cs : Option String} {resp : HttpResult (Option String)}
    {e : Unit} (h : get_spotify_token cid cs resp = Except.error e) :
    resp = HttpResult.raise := by
  unfold get_spotify_token at h
  by_cases hc : (pyTruthy cid && pyTruthy cs) = true
  · rw [if_pos hc] at h
    cases resp <;> simp_all
  · rw [if_neg hc] at h
    cases h

/-- A Last.fm lookup that raises always degrades to the empty string. -/
theorem get_lastfm_description_fail (key : Option String) :
    get_lastfm_description key LastfmResult.fail = [] := by
  unfold get_lastfm_description
  by_cases h : pyTruthy key = true <;> simp [h]

/-- Reduction of `main` to the enrichment stage on the interesting path. -/
theorem main_eq_runEnrich (env : Env) (current known : Finset String)
    (hf : env.fetchResult = Except.ok current) (hne : current ≠ ∅)
    (hl : load_known_artists env.stateFile = Except.ok known)
    (hd : current \ known ≠ ∅) :
    main env = runEnrich env current (current \ known) := by
  unfold main
  rw [hf, hl]
  simp [hne, hd]

/-- Reduction of `main` on the empty-delta path. -/
theorem main_eq_empty_delta (env : Env) (current known : Finset String)
    (hf : env.fetchResult = Except.ok current) (hne : current ≠ ∅)
    (hl : load_known_artists env.stateFile = Except.ok known)
    (hd : current \ known = ∅) :
    main env = { stateFile := some (Except.ok (save_known_artists current))
                 attempted := none, dispatched := false, raised := false
                 spotifyCalls := some ∅, lastfmCalls := ∅ } := by
  unfold main
  rw [hf, hl]
  simp [hne, hd]

/-- Claim C1: for every scraped set `current` and persisted set `known`,
when `current` is non-empty every e-mail the run builds lists exactly the
names of `current` minus `known`, and whenever the run ends successfully
(dispatch succeeded or the delta was empty) the persisted state equals
`current`. -/
theorem main_delta_correct (env : Env) (current known : Finset String)
    (hf : env.fetchResult = Except.ok current) (hne : current ≠ ∅)
    (hl : load_known_artists env.stateFile = Except.ok known) :
    (∀ es, (main env).attempted = some es →
        (es.map fun e => e.1).toFinset = current \ known) ∧
    ((main env).dispatched = true ∨ current \ known = ∅ →
        (main env).stateFile = some (Except.ok (save_known_artists current)) ∧
        load_known_artists (main env).stateFile = Except.ok current) := by
  by_cases hd : current \ known = ∅
  · have hm := main_eq_empty_delta env current known hf hne hl hd
    constructor
    · intro es hes
      rw [hm] at hes
      cases hes
    · intro _
      rw [hm]
      exact ⟨rfl, load_save current⟩
  · have hm := main_eq_runEnrich env current known hf hne hl hd
    rw [hm]
    unfold runEnrich
    cases htok : get_spotify_token env.spotify_client_id env.spotify_client_secret env.tokenResp with
    | error e =>
      constructor
      · intro es hes
        cases hes
      · intro h
        rcases h with h | h
        · cases h
        · exact absurd h hd
    | ok token =>
      dsimp only
      by_cases hT : pyTruthy token = true
      · rw [if_pos hT]
        by_cases hE : ∃ n ∈ current \ known, env.spotifySearch n = HttpResult.raise
        · rw [if_pos hE]
          constructor
          · intro es hes
            cases hes
          · intro h
            rcases h with h | h
            · cases h
            · exact absurd h hd
        · rw [if_neg hE]
          constructor
          · intro es hes
            rw [runDispatch_attempted] at hes
            cases hes
            exact email_rows_names _ _ _
          · intro h
            have hOk : env.dispatchOk = true := by
              rcases h with h | h
              · rw [runDispatch_dispatched] at h
                exact h
              · exact absurd h hd
            rw [runDispatch_stateFile, hOk, if_pos rfl]
            exact ⟨rfl, load_save current⟩
      · rw [if_neg hT]
        constructor
        · intro es hes
          rw [runDispatch_attempted] at hes
          cases hes
          exact email_rows_names _ _ _
        · intro h
          have hOk : env.dispatchOk = true := by
            rcases h with h | h
            · rw [runDispatch_dispatched] at h
              exact h
            · exact absurd h hd
          rw [runDispatch_stateFile, hOk, if_pos rfl]
          exact ⟨rfl, load_save current⟩

/-- Claim C1 witness: the conclusion instantiated at the concrete run
`envOk`, where the scrape yields two names and one is already known. -/
theorem main_delta_correct_witness :
    (∀ es, (main envOk).attempted = some es →
        (es.map fun e => e.1).toFinset = {"A", "B"} \ {"A"}) ∧
    ((main envOk).dispatched = true ∨ ({"A", "B"} : Finset String) \ {"A"} = ∅ →
        (main envOk).stateFile = some (Except.ok (save_known_artists {"A", "B"})) ∧
        load_known_artists (main envOk).stateFile = Except.ok {"A", "B"}) :=
  main_delta_correct envOk {"A", "B"} {"A"} rfl (by decide) rfl

/-- Claim C2: when the fetch succeeds with a non-empty set, the delta is
non-empty, enrichment does not raise, and the SMTP dispatch fails, then
the e-mail was built but the run ends with the persisted state exactly as
it was before the run: the save step is never reached. -/
theorem dispatch_failure_preserves_state (env : Env) (current known : Finset String)
    (hf : env.fetchResult = Except.ok current) (hne : current ≠ ∅)
    (hl : load_known_artists env.stateFile = Except.ok known)
    (hd : current \ known ≠ ∅)
    (htok : env.tokenResp ≠ HttpResult.raise)
    (hsearch : ∀ n ∈ current \ known, env.spotifySearch n ≠ HttpResult.raise)
    (hmail : env.dispatchOk = false) :
    (main env).attempted.isSome = true ∧
    (main env).dispatched = false ∧
    (main env).stateFile = env.stateFile ∧
    (main env).raised = false := by
  have hm := main_eq_runEnrich env current known hf hne hl hd
  rw [hm]
  unfold runEnrich
  cases htokres : get_spotify_token env.spotify_client_id env.spotify_client_secret env.tokenResp with
  | error e => exact absurd (get_spotify_token_error htokres) htok
  | ok token =>
    dsimp only
    have hE : ¬∃ n ∈ current \ known, env.spotifySearch n = HttpResult.raise := by
      rintro ⟨n, hn, hr⟩
      exact hsearch n hn hr
    by_cases hT : pyTruthy token = true
    · rw [if_pos hT, if_neg hE]
      refine ⟨?_, ?_, ?_, ?_⟩
      · rw [runDispatch_attempted]
        rfl
      · rw [runDispatch_dispatched, hmail]
      · rw [runDispatch_stateFile, hmail]
        exact if_neg (by simp)
      · rw [runDispatch_raised]
    · rw [if_neg hT]
      refine ⟨?_, ?_, ?_, ?_⟩
      · rw [runDispatch_attempted]
        rfl
      · rw [runDispatch_dispatched, hmail]
      · rw [runDispatch_stateFile, hmail]
        exact if_neg (by simp)
      · rw [runDispatch_raised]

/-- Claim C2 witness: at the concrete run `envMailFail` the mail relay
rejects the send and the state file is untouched. -/
theorem dispatch_failure_preserves_state_witness :
    (main envMailFail).attempted.isSome = true ∧
    (main envMailFail).dispatched = false ∧
    (main envMailFail).stateFile = envMailFail.stateFile ∧
    (main envMailFail).raised = false :=
  dispatch_failure_preserves_state envMailFail {"A", "B"} {"A"} rfl (by decide) rfl
    (by decide) (by decide) (by decide) rfl

/-- Claim C4: a successful fetch with zero candidates ends the run with no
state mutation, no e-mail, and no uncaught exception. -/
theorem empty_scrape_no_mutation (env : Env) (hf : env.fetchResult = Except.ok ∅) :
    (main env).stateFile = env.stateFile ∧ (main env).attempted = none ∧
    (main env).dispatched = false ∧ (main env).raised = false := by
  unfold main
  rw [hf]
  simp

/-- Claim C4 witness: the empty-scrape run `envEmptyFetch`. -/
theorem empty_scrape_no_mutation_witness :
    (main envEmptyFetch).stateFile = envEmptyFetch.stateFile ∧
    (main envEmptyFetch).attempted = none ∧
    (main envEmptyFetch).dispatched = false ∧ (main envEmptyFetch).raised = false :=
  empty_scrape_no_mutation envEmptyFetch rfl

/-- Claim C5: after a run that successfully persisted the roster `R`, a
second run whose scrape again yields `R` loads `R` back, computes an empty
delta, builds no e-mail, and ends successfully. -/
theorem second_run_no_notification (env1 env2 : Env) (R : Finset String)
    (hR : R ≠ ∅)
    (_h1ok : (main env1).raised = false)
    (h1 : (main env1).stateFile = some (Except.ok (save_known_artists R)))
    (h2 : env2.stateFile = (main env1).stateFile)
    (hf2 : env2.fetchResult = Except.ok R) :
    (∃ known2, load_known_artists env2.stateFile = Except.ok known2 ∧ R \ known2 = ∅) ∧
    (main env2).attempted = none ∧ (main env2).dispatched = false ∧
    (main env2).raised = false ∧
    (main env2).stateFile = some (Except.ok (save_known_artists R)) := by
  have hload : load_known_artists env2.stateFile = Except.ok R := by
    rw [h2, h1]
    exact load_save R
  have hm := main_eq_empty_delta env2 R R hf2 hR hload (Finset.sdiff_self R)
  rw [hm]
  exact ⟨⟨R, hload, Finset.sdiff_self R⟩, rfl, rfl, rfl, rfl⟩

/-- Claim C5 witness: running `envOk` and then `envSecond`, whose state is
the file persisted by the first run and whose scrape repeats the roster. -/
theorem second_run_no_notification_witness :
    (∃ known2, load_known_artists envSecond.stateFile = Except.ok known2 ∧
        ({"A", "B"} : Finset String) \ known2 = ∅) ∧
    (main envSecond).attempted = none ∧ (main envSecond).dispatched = false ∧
    (main envSecond).raised = false ∧
    (main envSecond).stateFile = some (Except.ok (save_known_artists {"A", "B"})) :=
  second_run_no_notification envOk envSecond {"A", "B"} (by decide) rfl rfl rfl rfl

/-- Claim C6: a non-empty scrape whose delta is empty persists the current
candidate set (refreshing the file even though nothing changed) and exits
successfully with no enrichment call and no e-mail. -/
theorem empty_delta_refresh (env : Env) (current known : Finset String)
    (hf : env.fetchResult = Except.ok current) (hne : current ≠ ∅)
    (hl : load_known_artists env.stateFile = Except.ok known)
    (hd : current \ known = ∅) :
    main env = { stateFile := some (Except.ok (save_known_artists current))
                 attempted := none, dispatched := false, raised := false
                 spotifyCalls := some ∅, lastfmCalls := ∅ } ∧
    load_known_artists (main env).stateFile = Except.ok current := by
  have hm := main_eq_empty_delta env current known hf hne hl hd
  refine ⟨hm, ?_⟩
  rw [hm]
  exact load_save current

/-- Claim C6 witness: `envNoDelta` scrapes exactly the known set. -/
theorem empty_delta_refresh_witness :
    main envNoDelta = { stateFile := some (Except.ok (save_known_artists {"A"}))
                        attempted := none, dispatched := false, raised := false
                        spotifyCalls := some ∅, lastfmCalls := ∅ } ∧
    load_known_artists (main envNoDelta).stateFile = Except.ok {"A"} :=
  empty_delta_refresh envNoDelta {"A"} {"A"} rfl (by decide) rfl (by decide)

/-- Claim C7: the store contract — loading with no state file yields the
empty set without error; saving writes a sorted duplicate-free listing of
the set, and loading it back recovers exactly the saved set. -/
theorem store_contract (S : Finset String) :
    load_known_artists none = Except.ok ∅ ∧
    List.Sorted (· ≤ ·) (save_known_artists S) ∧
    (save_known_artists S).Nodup ∧
    load_known_artists (some (Except.ok (save_known_artists S))) = Except.ok S :=
  ⟨rfl, Finset.sort_sorted _ _, Finset.sort_nodup _ _, load_save S⟩

/-- Claim C9: whenever the Spotify token exchange yields no usable token
(credentials falsy, non-2xx exchange, raising exchange, or a falsy token
field), no per-performer Spotify search is issued and every row of any
e-mail the run builds carries the empty Spotify record. -/
theorem spotify_token_failure_skips_source (env : Env)
    (h : ∀ t, get_spotify_token env.spotify_client_id env.spotify_client_secret env.tokenResp
        = Except.ok (some t) → t = "") :
    (main env).spotifyCalls = some ∅ ∧
    ∀ es, (main env).attempted = some es → ∀ e ∈ es, e.2.1 = none := by
  unfold main
  cases hf : env.fetchResult with
  | error e =>
    refine ⟨rfl, ?_⟩
    intro es hes
    cases hes
  | ok current =>
    dsimp only
    by_cases hne : current = ∅
    · rw [if_pos hne]
      refine ⟨rfl, ?_⟩
      intro es hes
      cases hes
    · rw [if_neg hne]
      cases hload : load_known_artists env.stateFile with
      | error e =>
        refine ⟨rfl, ?_⟩
        intro es hes
        cases hes
      | ok known =>
        dsimp only
        by_cases hd : current \ known = ∅
        · rw [if_pos hd]
          refine ⟨rfl, ?_⟩
          intro es hes
          cases hes
        · rw [if_neg hd]
          unfold runEnrich
          cases htok : get_spotify_token env.spotify_client_id env.spotify_client_secret env.tokenResp with
          | error e =>
            refine ⟨rfl, ?_⟩
            intro es hes
            cases hes
          | ok token =>
            dsimp only
            have hT : pyTruthy token = false := by
              cases token with
              | none => rfl
              | some t =>
                have ht := h t htok
                subst ht
                rfl
            rw [hT]
            simp only [Bool.false_eq_true, if_false]
            refine ⟨runDispatch_spotifyCalls _ _ _ _ _, ?_⟩
            intro es hes e he
            rw [runDispatch_attempted] at hes
            cases hes
            have := email_rows_mem he
            rw [this.2]

/-- Claim C9 witness: at `envNoCreds` the Spotify client id is absent, no
search call is issued, and each e-mail row has the empty record. -/
theorem spotify_token_failure_skips_source_witness :
    (main envNoCreds).spotifyCalls = some ∅ ∧
    ∀ es, (main envNoCreds).attempted = some es → ∀ e ∈ es, e.2.1 = none :=
  spotify_token_failure_skips_source envNoCreds
    (fun t ht => by cases ht)

/-- Claim C10: a state file that exists but does not parse makes
`load_known_artists` raise, and a run reaching it after a successful
non-empty fetch aborts by an uncaught exception with no e-mail and no
state change. -/
theorem corrupt_state_file_aborts (env : Env) (current : Finset String)
    (hf : env.fetchResult = Except.ok current) (hne : current ≠ ∅)
    (hcorrupt : env.stateFile = some (Except.error ())) :
    load_known_artists env.stateFile = Except.error () ∧
    (main env).raised = true ∧ (main env).stateFile = env.stateFile ∧
    (main env).attempted = none ∧ (main env).dispatched = false := by
  have hload : load_known_artists env.stateFile = Except.error () := by
    rw [hcorrupt]
    rfl
  unfold main
  rw [hf, hload]
  simp [hne, hload]

/-- Claim C10 witness: the corrupt-file run `envCorrupt`. -/
theorem corrupt_state_file_aborts_witness :
    load_known_artists envCorrupt.stateFile = Except.error () ∧
    (main envCorrupt).raised = true ∧ (main envCorrupt).stateFile = envCorrupt.stateFile ∧
    (main envCorrupt).attempted = none ∧ (main envCorrupt).dispatched = false :=
  corrupt_state_file_aborts envCorrupt {"A", "B"} rfl (by decide) rfl

/-- Claim C3 counterexample: at the concrete run `envRaise` one performer
is new, its Spotify search raises (a timeout), and contrary to the claim
the run aborts by an uncaught exception: no notification is built and no
state is persisted. -/
theorem spotify_raise_aborts_run :
    envRaise.fetchResult = Except.ok {"A"} ∧
    load_known_artists envRaise.stateFile = Except.ok ∅ ∧
    envRaise.spotifySearch "A" = HttpResult.raise ∧
    envRaise.dispatchOk = true ∧
    (main envRaise).raised = true ∧
    (main envRaise).attempted = none ∧
    (main envRaise).stateFile = envRaise.stateFile :=
  ⟨rfl, rfl, rfl, rfl, rfl, rfl, rfl⟩

/-- Claim C3 amended: per-performer Last.fm failures of any kind, and
Spotify searches that return a non-2xx response or no match, do not abort
the run — the performer keeps an empty record or empty description, every
delta member still appears in the e-mail, and the run persists state; but
a Spotify search that raises (timeout or malformed payload) while a usable
token is held aborts the whole run without persisting state. -/
theorem enrichment_degrades_without_abort (env : Env) (current known : Finset String)
    (hf : env.fetchResult = Except.ok current) (hne : current ≠ ∅)
    (hl : load_known_artists env.stateFile = Except.ok known)
    (hd : current \ known ≠ ∅)
    (htok : env.tokenResp ≠ HttpResult.raise)
    (hmail : env.dispatchOk = true) :
    ((∀ n ∈ current \ known, env.spotifySearch n ≠ HttpResult.raise) →
      (main env).raised = false ∧
      (main env).stateFile = some (Except.ok (save_known_artists current)) ∧
      ∃ es, (main env).attempted = some es ∧
        (es.map fun e => e.1).toFinset = current \ known ∧
        ∀ e ∈ es,
          ((env.spotifySearch e.1 = HttpResult.notOk ∨ env.spotifySearch e.1 = HttpResult.ok []) →
            e.2.1 = none) ∧
          (env.lastfmResp e.1 = LastfmResult.fail → e.2.2 = [])) ∧
    ((∃ n ∈ current \ known, env.spotifySearch n = HttpResult.raise) →
      (∃ t, get_spotify_token env.spotify_client_id env.spotify_client_secret env.tokenResp
          = Except.ok (some t) ∧ t ≠ "") →
      (main env).raised = true ∧ (main env).stateFile = env.stateFile ∧
      (main env).attempted = none) := by
  have hm := main_eq_runEnrich env current known hf hne hl hd
  constructor
  · intro hnoraise
    rw [hm]
    unfold runEnrich
    cases htokres : get_spotify_token env.spotify_client_id env.spotify_client_secret env.tokenResp with
    | error e => exact absurd (get_spotify_token_error htokres) htok
    | ok token =>
      dsimp only
      have hE : ¬∃ n ∈ current \ known, env.spotifySearch n = HttpResult.raise := by
        rintro ⟨n, hn, hr⟩
        exact hnoraise n hn hr
      have hrows : ∀ (calls : Finset String) (sd : String → Option SpotifyInfo),
          (∀ n, (env.spotifySearch n = HttpResult.notOk ∨ env.spotifySearch n = HttpResult.ok []) →
            sd n = none) →
          (runDispatch env current (current \ known) calls sd).raised = false ∧
          (runDispatch env current (current \ known) calls sd).stateFile
            = some (Except.ok (save_known_artists current)) ∧
          ∃ es, (runDispatch env current (current \ known) calls sd).attempted = some es ∧
            (es.map fun e => e.1).toFinset = current \ known ∧
            ∀ e ∈ es,
              ((env.spotifySearch e.1 = HttpResult.notOk ∨ env.spotifySearch e.1 = HttpResult.ok []) →
                e.2.1 = none) ∧
              (env.lastfmResp e.1 = LastfmResult.fail → e.2.2 = []) := by
        intro calls sd hsd
        refine ⟨runDispatch_raised _ _ _ _ _, ?_, ?_⟩
        · rw [runDispatch_stateFile, hmail, if_pos rfl]
        · refine ⟨_, runDispatch_attempted _ _ _ _ _, email_rows_names _ _ _, ?_⟩
          intro e he
          have hmem := email_rows_mem he
          constructor
          · intro hcase
            rw [hmem.2]
            exact hsd e.1 hcase
          · intro hfail
            rw [hmem.2]
            show get_lastfm_description env.lastfm_api_key (env.lastfmResp e.1) = []
            rw [hfail]
            exact get_lastfm_description_fail _
      by_cases hT : pyTruthy token = true
      · rw [if_pos hT, if_neg hE]
        refine hrows _ _ ?_
        intro n hcase
        rcases hcase with hc | hc <;> rw [hc] <;> rfl
      · rw [if_neg hT]
        exact hrows _ _ fun n _ => rfl
  · rintro hraise ⟨t, htokeq, htne⟩
    rw [hm]
    unfold runEnrich
    rw [htokeq]
    dsimp only
    have hT : pyTruthy (some t) = true := by
      simp [pyTruthy, htne]
    rw [hT]
    simp only [if_true]
    rw [if_pos hraise]
    exact ⟨rfl, rfl, rfl⟩

/-- Claim C3 amended witness: the conclusion instantiated at `envOk`,
where the Spotify search is non-2xx and the Last.fm lookup raises for
every performer. -/
theorem enrichment_degrades_without_abort_witness :
    ((∀ n ∈ ({"A", "B"} : Finset String) \ {"A"}, envOk.spotifySearch n ≠ HttpResult.raise) →
      (main envOk).raised = false ∧
      (main envOk).stateFile = some (Except.ok (save_known_artists {"A", "B"})) ∧
      ∃ es, (main envOk).attempted = some es ∧
        (es.map fun e => e.1).toFinset = {"A", "B"} \ {"A"} ∧
        ∀ e ∈ es,
          ((envOk.spotifySearch e.1 = HttpResult.notOk ∨ envOk.spotifySearch e.1 = HttpResult.ok []) →
            e.2.1 = none) ∧
          (envOk.lastfmResp e.1 = LastfmResult.fail → e.2.2 = [])) ∧
    ((∃ n ∈ ({"A", "B"} : Finset String) \ {"A"}, envOk.spotifySearch n = HttpResult.raise) →
      (∃ t, get_spotify_token envOk.spotify_client_id envOk.spotify_client_secret envOk.tokenResp
          = Except.ok (some t) ∧ t ≠ "") →
      (main envOk).raised = true ∧ (main envOk).stateFile = envOk.stateFile ∧
      (main envOk).attempted = none) :=
  enrichment_degrades_without_abort envOk {"A", "B"} {"A"} rfl (by decide) rfl
    (by decide) (by decide) rfl

theorem length_dropWhile_le (p : Char → Bool) (l : List Char) :
    (l.dropWhile p).length ≤ l.length := by
  induction l with
  | nil => simp
  | cons a rest ih =>
    rw [List.dropWhile_cons]
    by_cases ha : p a = true
    · rw [if_pos ha]
      exact le_trans ih (Nat.le_succ _)
    · rw [if_neg ha]

theorem stripChars_length_le (l : List Char) : (stripChars l).length ≤ l.length := by
  unfold stripChars
  rw [List.length_reverse]
  refine le_trans (length_dropWhile_le _ _) ?_
  rw [List.length_reverse]
  exact length_dropWhile_le _ _

theorem truncAt1200_length_le (b : List Char) : (truncAt1200 b).length ≤ 1200 := by
  unfold truncAt1200
  by_cases hlen : 1200 < b.length
  · rw [if_pos hlen]
    cases rfindIdx '.' (b.take 1200) with
    | none =>
      simp only [List.length_take]
      omega
    | some i =>
      dsimp only
      by_cases hi : 800 < i
      · rw [if_pos hi]
        simp only [List.length_take]
        omega
      · rw [if_neg hi]
        simp only [List.length_take]
        omega
  · rw [if_neg hlen]
    omega

theorem truncateBio_length_le (bio : List Char) : (truncateBio bio).length ≤ 1200 := by
  unfold truncateBio
  by_cases hb : bio = []
  · rw [if_pos hb]
    exact le_trans (stripChars_length_le _) (by simp [hb])
  · rw [if_neg hb]
    exact le_trans (stripChars_length_le _) (truncAt1200_length_le _)

theorem get_lastfm_description_length_le (key : Option String) (resp : LastfmResult) :
    (get_lastfm_description key resp).length ≤ 1200 := by
  unfold get_lastfm_description
  by_cases hk : pyTruthy key = true
  · rw [if_pos hk]
    cases resp with
    | fail => simp
    | ok content summary => exact truncateBio_length_le _
  · rw [if_neg hk]
    simp

theorem head?_dropWhile (p : Char → Bool) (l : List Char) {a : Char}
    (h : (l.dropWhile p).head? = some a) : p a = false := by
  induction l with
  | nil => cases h
  | cons x xs ih =>
    rw [List.dropWhile_cons] at h
    by_cases hx : p x = true
    · rw [if_pos hx] at h
      exact ih h
    · rw [if_neg hx] at h
      injection h with h2
      subst h2
      simpa using hx

theorem getLast?_dropWhile (p : Char → Bool) (l : List Char)
    (h : l.dropWhile p ≠ []) : (l.dropWhile p).getLast? = l.getLast? := by
  induction l with
  | nil => exact absurd rfl h
  | cons x xs ih =>
    rw [List.dropWhile_cons] at h ⊢
    by_cases hx : p x = true
    · rw [if_pos hx] at h ⊢
      rw [ih h]
      cases xs with
      | nil => exact absurd rfl h
      | cons b bs => rw [List.getLast?_cons_cons]
    · rw [if_neg hx]

theorem stripChars_head? (l : List Char) {a : Char}
    (h : (stripChars l).head? = some a) : a.isWhitespace = false := by
  unfold stripChars at h
  rw [List.head?_reverse] at h
  have hne : (List.dropWhile Char.isWhitespace
      ((List.dropWhile Char.isWhitespace l).reverse)) ≠ [] := by
    intro h0
    rw [h0] at h
    cases h
  rw [getLast?_dropWhile _ _ hne, List.getLast?_reverse] at h
  exact head?_dropWhile _ _ h

theorem stripChars_eq_self (y : List Char)
    (h1 : ∀ a, y.head? = some a → a.isWhitespace = false)
    (h2 : ∀ a, y.getLast? = some a → a.isWhitespace = false) :
    stripChars y = y := by
  cases y with
  | nil => rfl
  | cons x xs =>
    have hx : Char.isWhitespace x = false := h1 x rfl
    unfold stripChars
    rw [List.dropWhile_cons_of_neg (by simp [hx])]
    cases hrev : (x :: xs).reverse with
    | nil => exact absurd (congrArg List.length hrev) (by simp)
    | cons c m =>
      have hc : Char.isWhitespace c = false := by
        apply h2
        rw [← List.head?_reverse, hrev]
        rfl
      have hdw : List.dropWhile Char.isWhitespace (c :: m) = c :: m :=
        List.dropWhile_cons_of_neg (by simp [hc])
      rw [hdw, ← hrev, List.reverse_reverse]

theorem rfindIdx_get? (c : Char) (l : List Char) :
    ∀ i : ℕ, rfindIdx c l = some i → l.get? i = some c := by
  induction l with
  | nil => intro i h; cases h
  | cons a rest ih =>
    intro i h
    rw [rfindIdx] at h
    cases hr : rfindIdx c rest with
    | some j =>
      rw [hr] at h
      injection h with h2
      subst h2
      rw [List.get?_cons_succ]
      exact ih j hr
    | none =>
      rw [hr] at h
      by_cases hac : a = c
      · rw [if_pos hac] at h
        injection h with h2
        subst h2
        rw [List.get?_cons_zero, hac]
      · rw [if_neg hac] at h
        cases h

theorem head?_take (l : List Char) (n : ℕ) (hn : 0 < n) :
    (l.take n).head? = l.head? := by
  cases l with
  | nil => simp
  | cons a rest =>
    cases n with
    | zero => omega
    | succ m => rw [List.take_succ_cons]; rfl

theorem getLast?_take_succ (l : List Char) :
    ∀ (i : ℕ) (c : Char), l.get? i = some c → (l.take (i + 1)).getLast? = some c := by
  induction l with
  | nil => intro i c h; cases h
  | cons a rest ih =>
    intro i c h
    cases i with
    | zero =>
      rw [List.get?_cons_zero] at h
      injection h with h2
      subst h2
      rfl
    | succ j =>
      rw [List.get?_cons_succ] at h
      cases rest with
      | nil => cases h
      | cons b rest2 =>
        have hrec := ih j c h
        rw [List.take_succ_cons]
        rw [List.take_succ_cons] at hrec ⊢
        rw [List.getLast?_cons_cons]
        exact hrec

/-- Claim C8: every processed biography is at most 1200 characters long
(also through `get_lastfm_description`), and when the stripped biography
exceeds 1200 characters and the last period of its first 1200 characters
sits at an index above 800, the result is exactly the prefix ending at
that period, whose final character is the period. -/
theorem lastfm_bio_truncation (bio : List Char) (i : ℕ)
    (hlen : 1200 < (stripChars (splitBefore linkMarker bio)).length)
    (hfind : rfindIdx '.' ((stripChars (splitBefore linkMarker bio)).take 1200) = some i)
    (hi : 800 < i) :
    (∀ y, (truncateBio y).length ≤ 1200) ∧
    (∀ key resp, (get_lastfm_description key resp).length ≤ 1200) ∧
    truncateBio bio = (stripChars (splitBefore linkMarker bio)).take (i + 1) ∧
    (truncateBio bio).getLast? = some '.' := by
  set b := stripChars (splitBefore linkMarker bio) with hb
  have hbio : bio ≠ [] := by
    intro h0
    rw [h0] at hb
    rw [hb] at hlen
    exact absurd hlen (by decide)
  have hget : (b.take 1200).get? i = some '.' := rfindIdx_get? '.' _ i hfind
  have hilt : i < 1200 := by
    obtain ⟨hlt, -⟩ := List.get?_eq_some.mp hget
    rw [List.length_take] at hlt
    exact lt_of_lt_of_le hlt (min_le_left _ _)
  have htrunc : truncAt1200 b = (b.take 1200).take (i + 1) := by
    unfold truncAt1200
    rw [if_pos hlen, hfind]
    dsimp only
    rw [if_pos hi]
  have htake2 : (b.take 1200).take (i + 1) = b.take (i + 1) := by
    rw [List.take_take, Nat.min_eq_left (by omega)]
  have hgl : (b.take (i + 1)).getLast? = some '.' := by
    rw [← htake2]
    exact getLast?_take_succ _ i '.' hget
  have hstrip : stripChars (b.take (i + 1)) = b.take (i + 1) := by
    apply stripChars_eq_self
    · intro a ha
      rw [head?_take _ _ (by omega)] at ha
      rw [hb] at ha
      exact stripChars_head? _ ha
    · intro a ha
      rw [hgl] at ha
      injection ha with h2
      subst h2
      decide
  have hmain : truncateBio bio = b.take (i + 1) := by
    unfold truncateBio
    rw [if_neg hbio, ← hb, htrunc, htake2, hstrip]
  refine ⟨truncateBio_length_le, get_lastfm_description_length_le, hmain, ?_⟩
  rw [hmain]
  exact hgl

set_option maxRecDepth 40000 in
/-- Claim C8 witness: the conclusion instantiated at the 1201-character
biography `bioW`, whose single period sits at index 801. -/
theorem lastfm_bio_truncation_witness :
    (∀ y, (truncateBio y).length ≤ 1200) ∧
    (∀ key resp, (get_lastfm_description key resp).length ≤ 1200) ∧
    truncateBio bioW = (stripChars (splitBefore linkMarker bioW)).take (801 + 1) ∧
    (truncateBio bioW).getLast? = some '.' :=
  lastfm_bio_truncation bioW 801 (by decide) (by decide) (by decide)

end Copenhell
